import Mathlib

/-!
Shallow embedding of the homey-web-proxy app (src/app.js, src/widgets/webframe/api.js,
and the unnamed earlier app variant src/unnamed/part_000) together with theorems
settling the specification claims about it.

JavaScript strings are modelled as lists of characters (`JStr`), bytes as natural
numbers below 256, the `Map`/object containers as association lists with JS `Map`
semantics, and the async operations as pure state-passing functions.  The network
(axios dispatch, WebSocket transport) is a parameter: an operation "performs a
network action" exactly when its result depends on that parameter.
-/

set_option maxHeartbeats 1000000

/-- JavaScript strings, modelled as lists of characters. -/
abbrev JStr := List Char

/-- Coerces a Lean string literal into the JavaScript string model. -/
def js (s : String) : JStr := s.toList

/-- Whitespace recognised by `String.prototype.trim` (ASCII subset). -/
def jsIsSpace (c : Char) : Bool := c == ' ' || c == '\t' || c == '\n' || c == '\r'

/-- Model of `String.prototype.trim`. -/
def jsTrim (s : JStr) : JStr := ((s.dropWhile jsIsSpace).reverse.dropWhile jsIsSpace).reverse

/-- Model of `String.prototype.split` with a single-character separator:
`"a;b".split(';') = ["a","b"]`, `"".split(';') = [""]`, `";".split(';') = ["",""]`. -/
def jsSplit (sep : Char) : JStr → List JStr
  | [] => [[]]
  | c :: rest =>
    if c == sep then [] :: jsSplit sep rest
    else
      match jsSplit sep rest with
      | [] => [[c]]
      | h :: t => (c :: h) :: t

/-- Value of a non-empty leading run of decimal digits; `none` when the first
character is not a digit.  Digit scan of `parseInt(_, 10)`. -/
def digitsVal (s : JStr) : Option Nat :=
  match s.takeWhile Char.isDigit with
  | [] => none
  | ds => some (ds.foldl (fun acc c => acc * 10 + (c.toNat - '0'.toNat)) 0)

/-- Model of `parseInt(v, 10)`: optional sign, then leading digits; `none` models `NaN`. -/
def jsParseInt (s : JStr) : Option Int :=
  match s.dropWhile jsIsSpace with
  | '-' :: rest => (digitsVal rest).map (fun n => -(n : Int))
  | '+' :: rest => (digitsVal rest).map (fun n => (n : Int))
  | t => (digitsVal t).map (fun n => (n : Int))

/-- The base64 alphabet used by `Buffer.prototype.toString('base64')`. -/
def b64Alphabet : JStr :=
  js "ABCDEFGHIJKLMNOPQRSTUVWXYZabcdefghijklmnopqrstuvwxyz0123456789+/"

/-- Base64 character of a six-bit value. -/
def sextetChar (n : Nat) : Char := b64Alphabet.getD n 'A'

/-- Six-bit value of a base64 character, `none` for characters outside the alphabet. -/
def charSextet (c : Char) : Option Nat := b64Alphabet.findIdx? (fun x => x == c)

/-- Model of `Buffer.prototype.toString('base64')` on a list of bytes: three bytes
become four alphabet characters, a final group of one or two bytes is padded with `=`. -/
def encB64 : List Nat → JStr
  | [] => []
  | [b0] => [sextetChar (b0 / 4), sextetChar (b0 % 4 * 16), '=', '=']
  | [b0, b1] => [sextetChar (b0 / 4), sextetChar (b0 % 4 * 16 + b1 / 16), sextetChar (b1 % 16 * 4), '=']
  | b0 :: b1 :: b2 :: rest =>
    sextetChar (b0 / 4) :: sextetChar (b0 % 4 * 16 + b1 / 16) ::
      sextetChar (b1 % 16 * 4 + b2 / 64) :: sextetChar (b2 % 64) :: encB64 rest

/-- Model of `Buffer.from(_, 'base64')` on well-formed padded base64 text, as produced
by the encoder: each four-character group yields three bytes, `=` padding one or two. -/
def decB64 : JStr → List Nat
  | c0 :: c1 :: c2 :: c3 :: rest =>
    match charSextet c0, charSextet c1 with
    | some s0, some s1 =>
      if c2 == '=' then [s0 * 4 + s1 / 16]
      else
        match charSextet c2 with
        | some s2 =>
          if c3 == '=' then [s0 * 4 + s1 / 16, s1 % 16 * 16 + s2 / 4]
          else
            match charSextet c3 with
            | some s3 => (s0 * 4 + s1 / 16) :: (s1 % 16 * 16 + s2 / 4) :: (s2 % 4 * 64 + s3) :: decB64 rest
            | none => []
        | none => []
    | _, _ => []
  | _ => []

/-- Result of URL parsing: the fields of the builtin `URL` object the app reads. -/
structure UrlObj where
  hostname : JStr
  pathname : JStr
deriving Repr, DecidableEq

/-- Splits a string at its first occurrence of `://`. -/
def splitScheme : JStr → Option (JStr × JStr)
  | [] => none
  | ':' :: '/' :: '/' :: rest => some ([], rest)
  | c :: rest => (splitScheme rest).map (fun p => (c :: p.1, p.2))

/-- Modelled from the Node.js WHATWG `URL` builtin (simplified to the
`scheme://host/path` shape the proxy handles): parsing succeeds only for a non-empty
alphabetic scheme followed by `://` and a non-empty host; the pathname defaults to
`/`.  `new URL(s)` throwing is modelled by `none`. -/
def parseURL (s : JStr) : Option UrlObj :=
  match splitScheme s with
  | none => none
  | some (scheme, rest) =>
    if scheme.isEmpty || !(scheme.all Char.isAlpha) then none
    else
      let host := rest.takeWhile (fun c => !(c == '/'))
      let path := rest.dropWhile (fun c => !(c == '/'))
      if host.isEmpty then none
      else some { hostname := host, pathname := if path.isEmpty then js "/" else path }

/-- A stored cookie, as built by `_parseCookie` in src/app.js.  `path` is `none` when
the JS field is `undefined` (a bare `path` attribute); `expires` is the time value of
the stored expiry string under `new Date(_)` (`none` for null/undefined/invalid). -/
structure Cookie where
  name : JStr
  value : JStr
  path : Option JStr
  expires : Option Int
  httpOnly : Bool
  secure : Bool
deriving Repr, DecidableEq

/-- One step of the attribute loop of `_parseCookie` (src/app.js lines 140-159).
`pd` models `new Date(str).getTime()` (`none` = Invalid Date); `now` models
`Date.now()` for the `max-age` branch. -/
def cookieAttrStep (pd : JStr → Option Int) (now : Int) (cookie : Cookie) (attr : JStr) : Cookie :=
  let kv := (jsSplit '=' attr).map jsTrim
  let key := kv.headD []
  let val : Option JStr := kv.get? 1
  let lowerKey := key.map Char.toLower
  if lowerKey = js "path" then { cookie with path := val }
  else if lowerKey = js "expires" then { cookie with expires := val.bind pd }
  else if lowerKey = js "max-age" then
    match val.bind jsParseInt with
    | some maxAge => { cookie with expires := some (now + maxAge * 1000) }
    | none => cookie
  else if lowerKey = js "httponly" then { cookie with httpOnly := true }
  else if lowerKey = js "secure" then { cookie with secure := true }
  else cookie

/-- Model of `_parseCookie` (src/app.js lines 125-166): split on `;`, trim each part,
split the first part on `=` into name (`parts[0]`, trimmed again) and value
(`parts[1] || ''`), then fold the attribute parts.  For string input the JS
try/catch never fires, so the `[]` branch (impossible for `jsSplit`) is the only
`none`. -/
def parseCookie (pd : JStr → Option Int) (now : Int) (cookieStr : JStr) : Option Cookie :=
  match (jsSplit ';' cookieStr).map jsTrim with
  | [] => none
  | nameValue :: attributes =>
    let ps := jsSplit '=' nameValue
    let cookie0 : Cookie :=
      { name := jsTrim (ps.headD []), value := ps.getD 1 [],
        path := some (js "/"), expires := none, httpOnly := false, secure := false }
    some (attributes.foldl (cookieAttrStep pd now) cookie0)

/-- Name/value pair obtained from the first `;`-segment of a raw header by splitting
on `=` (all occurrences) and keeping the first two fields, as the source does. -/
def firstPairOf (s : JStr) : JStr × JStr :=
  let nv := jsTrim ((jsSplit ';' s).headD [])
  let ps := jsSplit '=' nv
  (jsTrim (ps.headD []), ps.getD 1 [])

/-- Predicate used by `findIndex(c => c.name === parsed.name)`. -/
def byName (n : JStr) (c : Cookie) : Bool := c.name == n

/-- `findIndex` + `splice(index, 1)` in src/app.js lines 85-88: remove the first
cookie bearing the given name, leave the list unchanged when there is none. -/
def removeNamed (n : JStr) : List Cookie → List Cookie
  | [] => []
  | c :: rest => if c.name == n then rest else c :: removeNamed n rest

/-- Processing of a single `Set-Cookie` value (src/app.js lines 81-92): on a parsed
cookie, remove the existing cookie of the same name and push the new one at the end. -/
def recordSetCookie (pd : JStr → Option Int) (now : Int) (cur : List Cookie) (s : JStr) : List Cookie :=
  match parseCookie pd now s with
  | none => cur
  | some parsed => removeNamed parsed.name cur ++ [parsed]

/-- The `forEach` over all received `Set-Cookie` values. -/
def recordResponse (pd : JStr → Option Int) (now : Int) (cur : List Cookie) (hs : List JStr) : List Cookie :=
  hs.foldl (recordSetCookie pd now) cur

/-- The filter of src/app.js lines 45-55: drop a cookie when its expiry date is
before now (`new Date(cookie.expires) < new Date()`), or when its path is truthy
and the request pathname does not start with it. -/
def cookieValid (pathname : JStr) (now : Int) (c : Cookie) : Bool :=
  if (match c.expires with | some e => decide (e < now) | none => false) then false
  else if (match c.path with | some p => !p.isEmpty && !(p.isPrefixOf pathname) | none => false) then false
  else true

/-- `validCookies.map(c => `${c.name}=${c.value}`).join('; ')` (src/app.js line 58). -/
def serializeCookies (l : List Cookie) : JStr :=
  List.intercalate (js "; ") (l.map (fun c => c.name ++ js "=" ++ c.value))

/-- The Cookie header computed before dispatch: `some` of the serialization when at
least one stored cookie passes the filter, `none` (header omitted) otherwise
(src/app.js lines 57-61). -/
def cookieHeaderOpt (stored : List Cookie) (pathname : JStr) (now : Int) : Option JStr :=
  let valid := stored.filter (cookieValid pathname now)
  if valid.length > 0 then some (serializeCookies valid) else none

/-- `Map.prototype.has` / key-presence in a JS object, on the association-list model. -/
def alistHas {α : Type} (m : List (JStr × α)) (k : JStr) : Bool := m.any (fun p => p.1 == k)

/-- `Map.prototype.get` / property read (first binding). -/
def alistGet {α : Type} (m : List (JStr × α)) (k : JStr) : Option α :=
  (m.find? (fun p => p.1 == k)).map Prod.snd

/-- `Map.prototype.set` / property write: overwrite in place when the key exists,
append otherwise. -/
def alistSet {α : Type} (m : List (JStr × α)) (k : JStr) (v : α) : List (JStr × α) :=
  if alistHas m k then m.map (fun p => if p.1 == k then (k, v) else p) else m ++ [(k, v)]

/-- `Map.prototype.delete`: remove the binding for the key. -/
def alistDelete {α : Type} (m : List (JStr × α)) (k : JStr) : List (JStr × α) :=
  m.filter (fun p => !(p.1 == k))

/-- Headers dispatched by the part_000 `webRequest`: the object spread
`{...headers, host: undefined, origin: undefined}` (lines 34-39) followed by axios
dropping `undefined`-valued headers from the outgoing request. -/
def outgoingHeadersP0 (headers : List (JStr × JStr)) : List (JStr × JStr) :=
  let spread := headers.map (fun p => (p.1, (some p.2 : Option JStr)))
  let cfg := alistSet (alistSet spread (js "host") none) (js "origin") none
  cfg.filterMap (fun p => p.2.map (fun v => (p.1, v)))

/-- An axios rejection: `error.message` and `error.response.status` when a partial
HTTP response exists. -/
structure AxiosErr where
  message : JStr
  responseStatus : Option Nat
deriving Repr, DecidableEq

/-- An axios resolution (with `validateStatus: () => true` every HTTP status
resolves).  `setCookie` models `response.headers['set-cookie']`; `body` the raw
response bytes of the arraybuffer. -/
structure AxiosResp where
  status : Nat
  statusText : JStr
  headers : List (JStr × JStr)
  setCookie : List JStr
  body : List Nat
deriving Repr, DecidableEq

/-- The result object every caller-facing operation resolves to.  Fields absent
from a given JS result object are `none`/`[]`. -/
structure ProxyResult where
  success : Bool
  status : Option Nat := none
  statusText : Option JStr := none
  rheaders : List (JStr × JStr) := []
  contentType : Option JStr := none
  data : Option JStr := none
  error : Option JStr := none
  wsId : Option JStr := none
deriving Repr, DecidableEq

/-- JS `||` on an optional string: the default wins when the value is absent or empty. -/
def jsOr (v : Option JStr) (dflt : JStr) : JStr :=
  match v with
  | some s => if s.isEmpty then dflt else s
  | none => dflt

/-- Success result of the part_000 `webRequest` (lines 57-64). -/
def p0SuccessResult (resp : AxiosResp) : ProxyResult :=
  { success := true, status := some resp.status, statusText := some resp.statusText,
    rheaders := resp.headers, data := some (encB64 resp.body),
    contentType := some (jsOr (alistGet resp.headers (js "content-type")) (js "text/html")) }

/-- Success result of the src/app.js `webRequest` (lines 109-116); no content-type default. -/
def appSuccessResult (resp : AxiosResp) : ProxyResult :=
  { success := true, status := some resp.status, statusText := some resp.statusText,
    rheaders := resp.headers, data := some (encB64 resp.body),
    contentType := alistGet resp.headers (js "content-type") }

/-- JS falsiness of the `url` parameter: absent or the empty string. -/
def urlFalsy : Option JStr → Bool
  | none => true
  | some s => s.isEmpty

/-- Caller-supplied parameters of the HTTP request operation. -/
structure ReqParams where
  url : Option JStr := none
  method : JStr := js "GET"
  headers : List (JStr × JStr) := []
  data : Option JStr := none
deriving Repr, DecidableEq

/-- The part_000 `webRequest` (src/unnamed/part_000 lines 15-75).  `net` is the
network: axios consults it only after URL validation succeeds, with the dispatched
header set as argument; an invalid URL makes axios throw `Invalid URL` locally.
The catch clause turns any throw into `success:false` with a best-effort status. -/
def webRequestP0 (net : List (JStr × JStr) → Except AxiosErr AxiosResp) (body : ReqParams) : ProxyResult :=
  if urlFalsy body.url then
    { success := false, status := some 400, error := some (js "URL is required") }
  else
    let dispatched := outgoingHeadersP0 body.headers
    match (if (parseURL (body.url.getD [])).isSome then net dispatched
           else Except.error { message := js "Invalid URL", responseStatus := none }) with
    | Except.ok resp => p0SuccessResult resp
    | Except.error e =>
      { success := false, status := some (e.responseStatus.getD 500),
        error := some e.message, data := some [] }

/-- `ws` readyState constants. -/
def wsCONNECTING : Nat := 0

/-- `WebSocket.OPEN`. -/
def wsOPEN : Nat := 1

/-- One live WebSocket handle as stored in `this.websockets`. -/
structure WS where
  url : JStr
  readyState : Nat
deriving Repr, DecidableEq

/-- The mutable state of the app: the WebSocket registry and the cookie jar. -/
structure AppState where
  websockets : List (JStr × WS) := []
  cookieJar : List (JStr × List Cookie) := []
deriving Repr, DecidableEq

/-- Transport-level actions an operation requests. -/
inductive WsAction where
  | connect (url : JStr)
  | sendFrame (bytes : List Nat)
  | closeFrame
deriving Repr, DecidableEq

/-- An event emitted on the realtime channel (`homey.api.realtime`). -/
structure RealtimeEvent where
  topic : JStr
  dataB64 : JStr := []
  isBinary : Bool := false
  code : Option Nat := none
  reason : Option JStr := none
  errMsg : Option JStr := none
deriving Repr, DecidableEq

/-- Headers the src/app.js `webRequest` hands to axios (lines 42-66): the caller's
headers with `headers['cookie']` set to the serialized valid cookies when at least
one qualifies. -/
def outgoingHeadersApp (st : AppState) (now : Int) (u : UrlObj) (headers : List (JStr × JStr)) :
    List (JStr × JStr) :=
  let stored := (alistGet st.cookieJar u.hostname).getD []
  match cookieHeaderOpt stored u.pathname now with
  | some h => alistSet headers (js "cookie") h
  | none => headers

/-- The src/app.js `webRequest` (lines 22-123).  It throws (`Except.error`) on an
invalid URL (`new URL(url)`) and rethrows axios failures (line 121); on success it
records any `Set-Cookie` headers into the jar for the URL's hostname and returns the
base64-encoded body. -/
def webRequestApp (pd : JStr → Option Int) (now : Int) (st : AppState) (params : ReqParams)
    (net : List (JStr × JStr) → Except AxiosErr AxiosResp) :
    Except JStr (ProxyResult × AppState) :=
  match parseURL (params.url.getD []) with
  | none => Except.error (js "Invalid URL")
  | some u =>
    match net (outgoingHeadersApp st now u params.headers) with
    | Except.error e => Except.error e.message
    | Except.ok resp =>
      let st' :=
        if resp.setCookie.length > 0 then
          let cur := (alistGet st.cookieJar u.hostname).getD []
          { st with cookieJar := alistSet st.cookieJar u.hostname (recordResponse pd now cur resp.setCookie) }
        else st
      Except.ok (appSuccessResult resp, st')

/-- `wsConnect` (src/app.js lines 168-234): throws when the id is registered;
otherwise creates the transport connection, registers the entry and returns
`{success, wsId}`.  The triple is (thrown-or-returned result, new state, requested
transport actions). -/
def wsConnect (st : AppState) (url wsId : JStr) :
    Except JStr ProxyResult × AppState × List WsAction :=
  if alistHas st.websockets wsId then
    (Except.error (js "WebSocket ID already in use"), st, [])
  else
    (Except.ok { success := true, wsId := some wsId },
     { st with websockets := alistSet st.websockets wsId { url := url, readyState := wsCONNECTING } },
     [WsAction.connect url])

/-- The `message` handler (src/app.js lines 187-204): the frame bytes are base64
encoded into the realtime payload. -/
def wsMessage (wsId : JStr) (frame : List Nat) (isBin : Bool) : RealtimeEvent :=
  { topic := js "ws:" ++ wsId ++ js ":message", dataB64 := encB64 frame, isBinary := isBin }

/-- The `close` handler (src/app.js lines 214-222): deletes the registry entry and
emits the close event. -/
def wsCloseEvent (st : AppState) (wsId : JStr) (code : Nat) (reason : JStr) :
    AppState × RealtimeEvent :=
  ({ st with websockets := alistDelete st.websockets wsId },
   { topic := js "ws:" ++ wsId ++ js ":close", code := some code, reason := some reason })

/-- `wsSend` (src/app.js lines 236-260): throws for an unknown id or a non-open
socket; otherwise decodes the base64 payload and hands the raw bytes to the
transport. -/
def wsSend (st : AppState) (wsId : JStr) (payload : JStr) :
    Except JStr ProxyResult × List WsAction :=
  match alistGet st.websockets wsId with
  | none => (Except.error (js "WebSocket not found"), [])
  | some ws =>
    if ws.readyState = wsOPEN then (Except.ok { success := true }, [WsAction.sendFrame (decB64 payload)])
    else (Except.error (js "WebSocket is not open"), [])

/-- `wsClose` (src/app.js lines 262-278): a no-op success for an unknown id;
otherwise requests transport closure and deletes the entry within the call. -/
def wsClose (st : AppState) (wsId : JStr) : ProxyResult × AppState × List WsAction :=
  match alistGet st.websockets wsId with
  | none => ({ success := true }, st, [])
  | some _ =>
    ({ success := true }, { st with websockets := alistDelete st.websockets wsId }, [WsAction.closeFrame])

/-- The api.js `webRequest` wrapper (lines 4-17): a throw from the app method
becomes `{success:false, status:500, error}` and the state is left as it was. -/
def apiWebRequest (pd : JStr → Option Int) (now : Int) (st : AppState) (params : ReqParams)
    (net : List (JStr × JStr) → Except AxiosErr AxiosResp) : ProxyResult × AppState :=
  match webRequestApp pd now st params net with
  | Except.ok (r, st') => (r, st')
  | Except.error m => ({ success := false, status := some 500, error := some m }, st)

/-- The api.js `wsConnect` wrapper (lines 19-31). -/
def apiWsConnect (st : AppState) (url wsId : JStr) : ProxyResult × AppState × List WsAction :=
  match wsConnect st url wsId with
  | (Except.ok r, st', acts) => (r, st', acts)
  | (Except.error m, st', acts) => ({ success := false, error := some m }, st', acts)

/-- The api.js `wsSend` wrapper (lines 33-45). -/
def apiWsSend (st : AppState) (wsId : JStr) (payload : JStr) : ProxyResult × List WsAction :=
  match wsSend st wsId payload with
  | (Except.ok r, acts) => (r, acts)
  | (Except.error m, _) => ({ success := false, error := some m }, [])

/-- The api.js `wsClose` wrapper (lines 47-59); the app method never throws. -/
def apiWsClose (st : AppState) (wsId : JStr) : ProxyResult × AppState × List WsAction :=
  wsClose st wsId

/-- A result value carrying a success/failure flag, with error details on failure. -/
def resultOk (r : ProxyResult) : Prop :=
  r.success = true ∨ (r.success = false ∧ r.error ≠ none)

/-- Refinement-comparison definition following the words of claim C5: a cookie
qualifies when its `expires` is null or strictly greater than now AND its stored
path is a prefix of the request path. -/
def claimQualifies (pathname : JStr) (now : Int) (c : Cookie) : Bool :=
  (match c.expires with
   | none => true
   | some e => decide (now < e)) &&
  (match c.path with
   | none => false
   | some p => p.isPrefixOf pathname)

/-- Amended C5 qualifier: `expires` is null or not strictly before now, and the
stored path is absent or a prefix of the request path. -/
def amendedQualifies (pathname : JStr) (now : Int) (c : Cookie) : Bool :=
  (match c.expires with
   | none => true
   | some e => decide (now ≤ e)) &&
  (match c.path with
   | none => true
   | some p => p.isPrefixOf pathname)

/-- The most recently processed header of the list that parses to a cookie of the
given name, if any. -/
def lastSetFor (pd : JStr → Option Int) (now : Int) (n : JStr) : List JStr → Option Cookie
  | [] => none
  | h :: t =>
    match lastSetFor pd now n t with
    | some c => some c
    | none =>
      match parseCookie pd now h with
      | some c => if c.name == n then some c else none
      | none => none

/-- The cookies stored in front of the first cookie bearing the given name. -/
def beforeName (n : JStr) (cur : List Cookie) : List Cookie :=
  cur.takeWhile (fun x => !(byName n x))

/-- The cookies stored behind the first cookie bearing the given name. -/
def afterName (n : JStr) (cur : List Cookie) : List Cookie :=
  (cur.dropWhile (fun x => !(byName n x))).drop 1

/-- A date-parse model that treats every expiry string as unparseable. -/
def pdNull : JStr → Option Int := fun _ => none

/-- A sample live WebSocket handle. -/
def wsDemo : WS := { url := js "wss://echo", readyState := wsOPEN }

/-- A registry state with a single socket registered under id `s1`. -/
def stOne : AppState := { websockets := [(js "s1", wsDemo)], cookieJar := [] }

/-- The empty app state. -/
def stEmpty : AppState := {}

/-- A sample sequence of Set-Cookie values re-setting the name `a`. -/
def hsDemo : List JStr := [js "a=1", js "a=2; Path=/x"]

/-- The cookie produced by the second header of `hsDemo`. -/
def cookieA2 : Cookie :=
  { name := js "a", value := js "2", path := some (js "/x"), expires := none,
    httpOnly := false, secure := false }

/-- A cookie whose expiry time equals the observation instant. -/
def cExpNow : Cookie :=
  { name := js "a", value := js "1", path := some (js "/"), expires := some 5,
    httpOnly := false, secure := false }

/-- A cookie stored with an undefined path (set by a bare `path` attribute). -/
def cBarePath : Cookie :=
  { name := js "b", value := js "2", path := none, expires := none,
    httpOnly := false, secure := false }

/-- A cookie that expired before time zero. -/
def cExpired : Cookie :=
  { name := js "c", value := js "3", path := some (js "/"), expires := some (-1),
    httpOnly := false, secure := false }

/-- A pre-existing jar cookie named `a`. -/
def cookieA1 : Cookie :=
  { name := js "a", value := js "1", path := some (js "/"), expires := none,
    httpOnly := false, secure := false }

/-- A pre-existing jar cookie named `b`. -/
def cookieB1 : Cookie :=
  { name := js "b", value := js "7", path := some (js "/"), expires := none,
    httpOnly := false, secure := false }

/-- A trivially succeeding network. -/
def resp0 : AxiosResp :=
  { status := 200, statusText := js "OK", headers := [], setCookie := [], body := [] }

/-- The network outcome that always resolves with `resp0`. -/
def netOk : List (JStr × JStr) → Except AxiosErr AxiosResp := fun _ => Except.ok resp0

/-- A network that reports whether the caller-supplied host header reached it. -/
def netSeesHost : List (JStr × JStr) → Except AxiosErr AxiosResp := fun hs =>
  if (js "host", js "evil") ∈ hs then
    Except.error { message := js "host was dispatched", responseStatus := none }
  else Except.ok resp0

/-- The alphabet lookup inverts the alphabet indexing on every six-bit value. -/
theorem charSextet_sextetChar {s : Nat} (h : s < 64) : charSextet (sextetChar s) = some s := by
  have hf : ∀ t : Fin 64, charSextet (sextetChar t.val) = some t.val := by decide
  exact hf ⟨s, h⟩

/-- No alphabet character is the padding character. -/
theorem sextetChar_ne_pad {s : Nat} (h : s < 64) : (sextetChar s == '=') = false := by
  have hf : ∀ t : Fin 64, (sextetChar t.val == '=') = false := by decide
  exact hf ⟨s, h⟩

/-- Decoding a doubly padded final group recovers its single byte expression. -/
theorem decB64_pad2 (s0 s1 : Nat) (h0 : s0 < 64) (h1 : s1 < 64) :
    decB64 [sextetChar s0, sextetChar s1, '=', '='] = [s0 * 4 + s1 / 16] := by
  simp only [decB64, charSextet_sextetChar h0, charSextet_sextetChar h1, beq_self_eq_true, if_true]

/-- Decoding a singly padded final group recovers its two byte expressions. -/
theorem decB64_pad1 (s0 s1 s2 : Nat) (h0 : s0 < 64) (h1 : s1 < 64) (h2 : s2 < 64) :
    decB64 [sextetChar s0, sextetChar s1, sextetChar s2, '='] =
      [s0 * 4 + s1 / 16, s1 % 16 * 16 + s2 / 4] := by
  simp only [decB64, charSextet_sextetChar h0, charSextet_sextetChar h1, charSextet_sextetChar h2,
    sextetChar_ne_pad h2, beq_self_eq_true, if_true, Bool.false_eq_true, if_false]

/-- Decoding an unpadded group yields its three byte expressions and continues. -/
theorem decB64_quad (s0 s1 s2 s3 : Nat) (h0 : s0 < 64) (h1 : s1 < 64) (h2 : s2 < 64)
    (h3 : s3 < 64) (rest : JStr) :
    decB64 (sextetChar s0 :: sextetChar s1 :: sextetChar s2 :: sextetChar s3 :: rest) =
      (s0 * 4 + s1 / 16) :: (s1 % 16 * 16 + s2 / 4) :: (s2 % 4 * 64 + s3) :: decB64 rest := by
  simp only [decB64, charSextet_sextetChar h0, charSextet_sextetChar h1, charSextet_sextetChar h2,
    charSextet_sextetChar h3, sextetChar_ne_pad h2, sextetChar_ne_pad h3,
    Bool.false_eq_true, if_false]

/-- Base64 round-trip on arbitrary byte lists. -/
theorem decB64_encB64 : ∀ (bs : List Nat), (∀ b ∈ bs, b < 256) → decB64 (encB64 bs) = bs
  | [], _ => rfl
  | [b0], h => by
    have hb0 : b0 < 256 := h b0 (by simp)
    rw [show encB64 [b0] = [sextetChar (b0 / 4), sextetChar (b0 % 4 * 16), '=', '='] from rfl,
      decB64_pad2 _ _ (by omega) (by omega)]
    simp only [List.cons.injEq, and_true]
    omega
  | [b0, b1], h => by
    have hb0 : b0 < 256 := h b0 (by simp)
    have hb1 : b1 < 256 := h b1 (by simp)
    rw [show encB64 [b0, b1] =
        [sextetChar (b0 / 4), sextetChar (b0 % 4 * 16 + b1 / 16), sextetChar (b1 % 16 * 4), '='] from rfl,
      decB64_pad1 _ _ _ (by omega) (by omega) (by omega)]
    simp only [List.cons.injEq, and_true]
    constructor <;> omega
  | b0 :: b1 :: b2 :: rest, h => by
    have hb0 : b0 < 256 := h b0 (by simp)
    have hb1 : b1 < 256 := h b1 (by simp)
    have hb2 : b2 < 256 := h b2 (by simp)
    have ih := decB64_encB64 rest (fun b hb => h b (by simp [hb]))
    rw [show encB64 (b0 :: b1 :: b2 :: rest) =
        sextetChar (b0 / 4) :: sextetChar (b0 % 4 * 16 + b1 / 16) ::
          sextetChar (b1 % 16 * 4 + b2 / 64) :: sextetChar (b2 % 64) :: encB64 rest from rfl,
      decB64_quad _ _ _ _ (by omega) (by omega) (by omega) (by omega), ih]
    simp only [List.cons.injEq, and_true]
    refine ⟨by omega, by omega, by omega⟩

/-- Claim C1: decoding the transport-safe encoding applied to any byte sequence
yields exactly that sequence, at every boundary where the encoding is used: the
HTTP response body returned by webRequest is the base64 of the raw response bytes
(both implementations), the socket message payload emitted on the event channel is
the base64 of the frame bytes, and wsSend decodes its base64 payload back to
exactly the raw bytes it hands to the transport. -/
theorem c1_base64_roundtrip_at_boundaries (bs : List Nat) (hbs : ∀ b ∈ bs, b < 256) :
    decB64 (encB64 bs) = bs ∧
    (∀ resp : AxiosResp, resp.body = bs →
      (appSuccessResult resp).data = some (encB64 bs) ∧
      (p0SuccessResult resp).data = some (encB64 bs)) ∧
    (∀ wsId isBin, (wsMessage wsId bs isBin).dataB64 = encB64 bs ∧
      decB64 (wsMessage wsId bs isBin).dataB64 = bs) ∧
    (∀ st wsId ws, alistGet st.websockets wsId = some ws → ws.readyState = wsOPEN →
      (wsSend st wsId (encB64 bs)).2 = [WsAction.sendFrame bs]) := by
  have hrt := decB64_encB64 bs hbs
  refine ⟨hrt, ?_, ?_, ?_⟩
  · intro resp hb
    subst hb
    exact ⟨rfl, rfl⟩
  · intro wsId isBin
    exact ⟨rfl, by simpa [wsMessage] using hrt⟩
  · intro st wsId ws hget hopen
    unfold wsSend
    rw [hget]
    simp [hopen, hrt]

/-- Witness for C1 at the byte sequence containing all 256 byte values. -/
theorem c1_base64_roundtrip_at_boundaries_witness :
    decB64 (encB64 (List.range 256)) = List.range 256 :=
  (c1_base64_roundtrip_at_boundaries (List.range 256) (fun _ hb => List.mem_range.mp hb)).1

/-- A successful return of the src/app.js webRequest carries `success: true`. -/
theorem webRequestApp_ok_success {pd : JStr → Option Int} {now : Int} {st : AppState}
    {params : ReqParams} {net : List (JStr × JStr) → Except AxiosErr AxiosResp}
    {pr : ProxyResult × AppState}
    (h : webRequestApp pd now st params net = Except.ok pr) : pr.1.success = true := by
  unfold webRequestApp at h
  split at h
  · exact absurd h (by simp)
  · split at h
    · exact absurd h (by simp)
    · rw [Except.ok.injEq] at h
      exact h ▸ rfl

/-- Claim C2: every caller-invoked operation of the exposed interface returns a
result value carrying a success/failure flag (with error details on failure), for
every state, input and network outcome — including the ones that make the
underlying app method throw; no invocation propagates an exception. -/
theorem c2_api_always_resolves (pd : JStr → Option Int) (now : Int) (st : AppState)
    (params : ReqParams) (net : List (JStr × JStr) → Except AxiosErr AxiosResp)
    (url wsId payload : JStr) :
    resultOk (apiWebRequest pd now st params net).1 ∧
    resultOk (apiWsConnect st url wsId).1 ∧
    resultOk (apiWsSend st wsId payload).1 ∧
    resultOk (apiWsClose st wsId).1 := by
  refine ⟨?_, ?_, ?_, ?_⟩
  · unfold apiWebRequest
    rcases hw : webRequestApp pd now st params net with m | pr
    · simp [resultOk]
    · have := webRequestApp_ok_success hw
      simp [resultOk, this]
  · unfold apiWsConnect wsConnect
    by_cases hb : alistHas st.websockets wsId = true <;> simp [hb, resultOk]
  · unfold apiWsSend wsSend
    cases alistGet st.websockets wsId with
    | none => simp [resultOk]
    | some ws =>
      by_cases hrs : ws.readyState = wsOPEN <;> simp [resultOk, hrs]
  · unfold apiWsClose wsClose
    cases alistGet st.websockets wsId with
    | none => simp [resultOk]
    | some ws => simp [resultOk]

/-- Claim C9: wsClose always reports success; on an unregistered id it is a pure
no-op, on a registered id it requests transport closure and removes the entry
within the call itself, and a second close after a first is again a success. -/
theorem c9_wsClose_idempotent (st : AppState) (wsId : JStr) :
    ((wsClose st wsId).1 = { success := true }) ∧
    (alistGet st.websockets wsId = none → wsClose st wsId = ({ success := true }, st, [])) ∧
    (∀ ws, alistGet st.websockets wsId = some ws →
      alistHas (wsClose st wsId).2.1.websockets wsId = false ∧
      (wsClose st wsId).2.2 = [WsAction.closeFrame]) ∧
    ((wsClose (wsClose st wsId).2.1 wsId).1 = { success := true }) := by
  have hsucc : ∀ (s : AppState), (wsClose s wsId).1 = { success := true } := by
    intro s
    unfold wsClose
    cases alistGet s.websockets wsId <;> rfl
  refine ⟨hsucc st, ?_, ?_, hsucc _⟩
  · intro hnone
    unfold wsClose
    rw [hnone]
  · intro ws hsome
    unfold wsClose
    rw [hsome]
    refine ⟨?_, rfl⟩
    clear hsome
    induction st.websockets with
    | nil => rfl
    | cons p t ih =>
      by_cases hk : (p.1 == wsId) = true <;>
        simp [alistDelete, alistHas, List.filter_cons, hk] at ih ⊢

/-- Deleting a key removes every binding for it. -/
theorem alistHas_delete {α : Type} (m : List (JStr × α)) (k : JStr) :
    alistHas (alistDelete m k) k = false := by
  induction m with
  | nil => rfl
  | cons p t ih =>
    by_cases hk : (p.1 == k) = true <;>
      simp [alistDelete, alistHas, List.filter_cons, hk] at ih ⊢

/-- A key that `alistHas` does not see is not among the stored keys. -/
theorem not_mem_keys_of_alistHas_false {α : Type} {m : List (JStr × α)} {k : JStr}
    (h : alistHas m k = false) : k ∉ m.map Prod.fst := by
  intro hmem
  rcases List.mem_map.mp hmem with ⟨p, hp, hkey⟩
  have : m.any (fun q => q.1 == k) = true :=
    List.any_eq_true.mpr ⟨p, hp, by simp [hkey]⟩
  rw [alistHas] at h
  simp [this] at h

/-- Deleting a key keeps the stored keys duplicate-free. -/
theorem alistDelete_keys_nodup {α : Type} {m : List (JStr × α)} (k : JStr)
    (h : (m.map Prod.fst).Nodup) : ((alistDelete m k).map Prod.fst).Nodup :=
  ((List.filter_sublist m).map Prod.fst).nodup h

/-- Reading a freshly appended binding. -/
theorem alistGet_set_new {α : Type} {m : List (JStr × α)} {k : JStr} (v : α)
    (h : alistHas m k = false) : alistGet (alistSet m k v) k = some v := by
  have hnone : m.find? (fun p => p.1 == k) = none := by
    rw [List.find?_eq_none]
    intro p hp hpk
    have hany : m.any (fun q => q.1 == k) = true := List.any_eq_true.mpr ⟨p, hp, hpk⟩
    unfold alistHas at h
    rw [hany] at h
    exact absurd h (by simp)
  unfold alistSet
  rw [h]
  simp only [Bool.false_eq_true, if_false]
  unfold alistGet
  rw [List.find?_append, hnone]
  simp

/-- Registering a fresh key keeps the stored keys duplicate-free. -/
theorem alistSet_new_keys_nodup {α : Type} {m : List (JStr × α)} {k : JStr} (v : α)
    (hnd : (m.map Prod.fst).Nodup) (h : alistHas m k = false) :
    ((alistSet m k v).map Prod.fst).Nodup := by
  unfold alistSet
  rw [h]
  simp only [Bool.false_eq_true, if_false, List.map_append]
  exact hnd.append (by simp) (by
    intro x hx hx'
    simp at hx'
    exact not_mem_keys_of_alistHas_false h (hx' ▸ hx))

/-- Claim C3: at most one SocketEntry exists per id.  Opening a registered id
throws (the API layer turns this into a failure) without touching the registry or
the transport; a registry with duplicate-free ids keeps duplicate-free ids through
`open`; the close-event handler removes the id, after which a new open with that id
succeeds and registers a fresh connecting entry. -/
theorem c3_socket_id_unique (st : AppState) (url wsId : JStr) (code : Nat) (reason : JStr)
    (hnd : (st.websockets.map Prod.fst).Nodup) :
    (alistHas st.websockets wsId = true →
      wsConnect st url wsId = (Except.error (js "WebSocket ID already in use"), st, [])) ∧
    (((wsConnect st url wsId).2.1.websockets.map Prod.fst).Nodup) ∧
    (alistHas (wsCloseEvent st wsId code reason).1.websockets wsId = false) ∧
    (((wsCloseEvent st wsId code reason).1.websockets.map Prod.fst).Nodup) ∧
    ((wsConnect (wsCloseEvent st wsId code reason).1 url wsId).1 =
      Except.ok { success := true, wsId := some wsId } ∧
     alistGet (wsConnect (wsCloseEvent st wsId code reason).1 url wsId).2.1.websockets wsId =
      some { url := url, readyState := wsCONNECTING }) := by
  have hdel : alistHas (wsCloseEvent st wsId code reason).1.websockets wsId = false := by
    unfold wsCloseEvent
    exact alistHas_delete st.websockets wsId
  refine ⟨?_, ?_, hdel, ?_, ?_⟩
  · intro h
    unfold wsConnect
    rw [h]
    rfl
  · unfold wsConnect
    by_cases hb : alistHas st.websockets wsId = true
    · rw [hb]
      exact hnd
    · rw [Bool.of_not_eq_true hb]
      simp only [Bool.false_eq_true, if_false]
      exact alistSet_new_keys_nodup _ hnd (Bool.of_not_eq_true hb)
  · exact alistDelete_keys_nodup wsId hnd
  · unfold wsConnect
    rw [hdel]
    exact ⟨rfl, alistGet_set_new _ hdel⟩

/-- Witness for C3: with `s1` registered, a second open fails and leaves the state
alone, while after the close event the same id opens successfully. -/
theorem c3_socket_id_unique_witness :
    wsConnect stOne (js "wss://echo") (js "s1") =
      (Except.error (js "WebSocket ID already in use"), stOne, []) ∧
    (wsConnect (wsCloseEvent stOne (js "s1") 1000 []).1 (js "wss://echo") (js "s1")).1 =
      Except.ok { success := true, wsId := some (js "s1") } :=
  ⟨(c3_socket_id_unique stOne (js "wss://echo") (js "s1") 1000 [] (by decide)).1 (by decide),
   ((c3_socket_id_unique stOne (js "wss://echo") (js "s1") 1000 [] (by decide)).2.2.2.2).1⟩

/-- Witness for C9: closing an unknown id is a successful no-op, and closing the
registered id `s1` removes it within the call. -/
theorem c9_wsClose_idempotent_witness :
    wsClose stEmpty (js "s1") = ({ success := true }, stEmpty, []) ∧
    alistHas (wsClose stOne (js "s1")).2.1.websockets (js "s1") = false :=
  ⟨(c9_wsClose_idempotent stEmpty (js "s1")).2.1 (by decide),
   ((c9_wsClose_idempotent stOne (js "s1")).2.2.1 wsDemo (by decide)).1⟩

/-- Decomposition of a cookie list at the first cookie bearing a name, and the
effect of `findIndex` + `splice` on it. -/
theorem find?_byName_decomp {n : JStr} :
    ∀ {cur : List Cookie} {old : Cookie}, cur.find? (byName n) = some old →
      cur = beforeName n cur ++ old :: afterName n cur ∧
      (∀ x ∈ beforeName n cur, (x.name == n) = false) ∧
      (old.name == n) = true ∧
      removeNamed n cur = beforeName n cur ++ afterName n cur := by
  intro cur
  induction cur with
  | nil => intro old h; simp at h
  | cons c t ih =>
    intro old h
    by_cases hc : (c.name == n) = true
    · rw [List.find?_cons_of_pos _ (show byName n c = true from hc)] at h
      injection h with h
      subst h
      refine ⟨?_, ?_, hc, ?_⟩ <;>
        simp [beforeName, afterName, removeNamed, byName, hc]
    · have hc' : (c.name == n) = false := by simpa using hc
      rw [List.find?_cons_of_neg _ (show ¬byName n c = true from hc)] at h
      obtain ⟨h1, h2, h3, h4⟩ := ih h
      refine ⟨?_, ?_, h3, ?_⟩
      · simpa [beforeName, afterName, byName, hc'] using h1
      · intro x hx
        rcases List.mem_cons.mp (by simpa [beforeName, byName, hc'] using hx) with rfl | hx'
        · exact hc'
        · exact h2 x hx'
      · simpa [beforeName, afterName, removeNamed, byName, hc'] using h4

/-- Claim C10: recording a Set-Cookie for a name that is already stored removes the
old entry from its position and appends the new cookie at the end, so the position
of a re-set cookie moves to the end of the stored sequence. -/
theorem c10_reset_moves_to_end (pd : JStr → Option Int) (now : Int)
    (cur : List Cookie) (h : JStr) (parsed old : Cookie)
    (hp : parseCookie pd now h = some parsed)
    (hfind : cur.find? (byName parsed.name) = some old) :
    cur = beforeName parsed.name cur ++ old :: afterName parsed.name cur ∧
    (∀ x ∈ beforeName parsed.name cur, (x.name == parsed.name) = false) ∧
    (old.name == parsed.name) = true ∧
    recordSetCookie pd now cur h =
      beforeName parsed.name cur ++ afterName parsed.name cur ++ [parsed] := by
  obtain ⟨h1, h2, h3, h4⟩ := find?_byName_decomp hfind
  refine ⟨h1, h2, h3, ?_⟩
  unfold recordSetCookie
  rw [hp]
  show removeNamed parsed.name cur ++ [parsed] = _
  rw [h4]

/-- Witness for C10 on a jar holding `a` then `b`, re-setting `a`. -/
theorem c10_reset_moves_to_end_witness :
    [cookieA1, cookieB1] =
      beforeName cookieA2.name [cookieA1, cookieB1] ++
        cookieA1 :: afterName cookieA2.name [cookieA1, cookieB1] ∧
    recordSetCookie pdNull 0 [cookieA1, cookieB1] (js "a=2; Path=/x") =
      beforeName cookieA2.name [cookieA1, cookieB1] ++
        afterName cookieA2.name [cookieA1, cookieB1] ++ [cookieA2] :=
  ⟨(c10_reset_moves_to_end pdNull 0 [cookieA1, cookieB1] (js "a=2; Path=/x") cookieA2 cookieA1
      (by decide) (by decide)).1,
   (c10_reset_moves_to_end pdNull 0 [cookieA1, cookieB1] (js "a=2; Path=/x") cookieA2 cookieA1
      (by decide) (by decide)).2.2.2⟩

/-- The splice removal produces a sublist of the stored sequence. -/
theorem removeNamed_sublist (n : JStr) : ∀ (l : List Cookie), List.Sublist (removeNamed n l) l
  | [] => List.Sublist.refl []
  | c :: t => by
    unfold removeNamed
    by_cases hc : (c.name == n) = true
    · rw [if_pos hc]
      exact List.sublist_cons_self c t
    · rw [if_neg hc]
      exact (removeNamed_sublist n t).cons₂ c

/-- Under duplicate-free names, removing a name leaves no cookie bearing it. -/
theorem removeNamed_no_name {n : JStr} :
    ∀ {l : List Cookie}, (l.map Cookie.name).Nodup →
      ∀ x ∈ removeNamed n l, (x.name == n) = false := by
  intro l
  induction l with
  | nil => intro _ x hx; simp [removeNamed] at hx
  | cons c t ih =>
    intro hnd x hx
    have hnd' : (t.map Cookie.name).Nodup := (List.nodup_cons.mp hnd).2
    by_cases hc : (c.name == n) = true
    · rw [removeNamed, if_pos hc] at hx
      have hcn : c.name = n := by simpa using hc
      have hnotin : c.name ∉ t.map Cookie.name := (List.nodup_cons.mp hnd).1
      have : x.name ≠ n := by
        intro hxn
        exact hnotin (hcn ▸ hxn ▸ List.mem_map_of_mem Cookie.name hx)
      simpa using this
    · rw [removeNamed, if_neg hc] at hx
      rcases List.mem_cons.mp hx with rfl | hx'
      · simpa using hc
      · exact ih hnd' x hx'

/-- Recording one Set-Cookie value keeps the stored names duplicate-free. -/
theorem recordSetCookie_nodup (pd : JStr → Option Int) (now : Int) (cur : List Cookie)
    (h : JStr) (hnd : (cur.map Cookie.name).Nodup) :
    ((recordSetCookie pd now cur h).map Cookie.name).Nodup := by
  unfold recordSetCookie
  cases hph : parseCookie pd now h with
  | none => exact hnd
  | some parsed =>
    rw [List.map_append]
    refine (((removeNamed_sublist parsed.name cur).map Cookie.name).nodup hnd).append
      (by simp) ?_
    intro x hx hx'
    rcases List.mem_map.mp hx with ⟨cke, hcke, hname⟩
    have := removeNamed_no_name hnd cke hcke
    simp at hx'
    rw [hx'] at hname
    rw [← hname] at this
    simp at this

/-- `find?` by a name ignores the removal of a different name. -/
theorem find?_removeNamed_other {m n : JStr} (hne : m ≠ n) :
    ∀ (l : List Cookie), (removeNamed m l).find? (byName n) = l.find? (byName n)
  | [] => rfl
  | c :: t => by
    unfold removeNamed
    by_cases hc : (c.name == m) = true
    · rw [if_pos hc]
      have hcn : ¬byName n c = true := by
        have : c.name = m := by simpa using hc
        simp [byName, this, hne]
      rw [List.find?_cons_of_neg _ hcn]
    · rw [if_neg hc]
      by_cases hn : byName n c = true
      · rw [List.find?_cons_of_pos _ hn, List.find?_cons_of_pos _ hn]
      · rw [List.find?_cons_of_neg _ hn, List.find?_cons_of_neg _ hn]
        exact find?_removeNamed_other hne t

/-- Recording a cookie of a different name does not change what `find?` sees for a
name. -/
theorem find?_recordSetCookie_other {pd : JStr → Option Int} {now : Int}
    {cur : List Cookie} {h : JStr} {n : JStr}
    (hother : ∀ c, parseCookie pd now h = some c → (c.name == n) = false) :
    (recordSetCookie pd now cur h).find? (byName n) = cur.find? (byName n) := by
  unfold recordSetCookie
  cases hph : parseCookie pd now h with
  | none => rfl
  | some parsed =>
    have hpn : (parsed.name == n) = false := hother parsed hph
    have hne : parsed.name ≠ n := by simpa using hpn
    rw [List.find?_append, find?_removeNamed_other hne cur]
    cases hf : cur.find? (byName n) with
    | some c => rfl
    | none =>
      simp only [Option.none_or]
      rw [List.find?_eq_none]
      intro x hx
      rcases List.mem_singleton.mp hx with rfl
      simp [byName, hpn]

/-- Recording a cookie makes it what `find?` sees for its name (under duplicate-free
stored names). -/
theorem find?_recordSetCookie_self {pd : JStr → Option Int} {now : Int}
    {cur : List Cookie} {h : JStr} {parsed : Cookie}
    (hnd : (cur.map Cookie.name).Nodup)
    (hph : parseCookie pd now h = some parsed) :
    (recordSetCookie pd now cur h).find? (byName parsed.name) = some parsed := by
  unfold recordSetCookie
  rw [hph]
  show (removeNamed parsed.name cur ++ [parsed]).find? (byName parsed.name) = some parsed
  rw [List.find?_append]
  have hnone : (removeNamed parsed.name cur).find? (byName parsed.name) = none := by
    rw [List.find?_eq_none]
    intro x hx
    simp [byName, removeNamed_no_name hnd x hx]
  rw [hnone]
  simp [byName]

/-- Headers none of which set a name leave that name's `find?` result unchanged. -/
theorem find?_recordResponse_none {pd : JStr → Option Int} {now : Int} {n : JStr} :
    ∀ {hs : List JStr} {cur : List Cookie}, lastSetFor pd now n hs = none →
      (recordResponse pd now cur hs).find? (byName n) = cur.find? (byName n) := by
  intro hs
  induction hs with
  | nil => intro cur _; rfl
  | cons h t ih =>
    intro cur hlast
    rw [lastSetFor] at hlast
    cases hlt : lastSetFor pd now n t with
    | some c => rw [hlt] at hlast; simp at hlast
    | none =>
      rw [hlt] at hlast
      have hstep : (recordSetCookie pd now cur h).find? (byName n) = cur.find? (byName n) := by
        refine find?_recordSetCookie_other ?_
        intro c hc
        rw [hc] at hlast
        by_cases hcn : (c.name == n) = true
        · simp [hcn] at hlast
        · simpa using hcn
      exact (ih hlt).trans hstep

/-- Claim C4: for every domain and every sequence of processed Set-Cookie values,
the stored sequence keeps at most one cookie per distinct name, and the cookie
found under a name set by the sequence is exactly the most recently processed
header's parse for that name. -/
theorem c4_jar_latest_per_name (pd : JStr → Option Int) (now : Int) (init : List Cookie)
    (hs : List JStr) (hnd : (init.map Cookie.name).Nodup) :
    ((recordResponse pd now init hs).map Cookie.name).Nodup ∧
    ∀ n c, lastSetFor pd now n hs = some c →
      (recordResponse pd now init hs).find? (byName n) = some c := by
  induction hs generalizing init with
  | nil =>
    refine ⟨hnd, ?_⟩
    intro n c hlast
    simp [lastSetFor] at hlast
  | cons h t ih =>
    have hnd' := recordSetCookie_nodup pd now init h hnd
    obtain ⟨ihn, ihf⟩ := ih (recordSetCookie pd now init h) hnd'
    refine ⟨ihn, ?_⟩
    intro n c hlast
    rw [lastSetFor] at hlast
    cases hlt : lastSetFor pd now n t with
    | some c' =>
      rw [hlt] at hlast
      have hcc : c' = c := by simpa using hlast
      exact hcc ▸ ihf n c' hlt
    | none =>
      rw [hlt] at hlast
      cases hph : parseCookie pd now h with
      | none => rw [hph] at hlast; simp at hlast
      | some c0 =>
        rw [hph] at hlast
        by_cases hcn : (c0.name == n) = true
        · have hc0 : c0 = c := by simpa [hcn] using hlast
          have hname : c0.name = n := by simpa using hcn
          subst hc0
          subst hname
          have hfin :=
            @find?_recordResponse_none pd now c0.name t (recordSetCookie pd now init h) hlt
          exact hfin.trans (find?_recordSetCookie_self hnd hph)
        · simp [hcn] at hlast

/-- Witness for C4: processing `a=1` then `a=2; Path=/x` from an empty jar leaves
duplicate-free names and stores the second header's cookie under `a`. -/
theorem c4_jar_latest_per_name_witness :
    ((recordResponse pdNull 0 [] hsDemo).map Cookie.name).Nodup ∧
    (recordResponse pdNull 0 [] hsDemo).find? (byName (js "a")) = some cookieA2 :=
  ⟨(c4_jar_latest_per_name pdNull 0 [] hsDemo (by decide)).1,
   (c4_jar_latest_per_name pdNull 0 [] hsDemo (by decide)).2 (js "a") cookieA2 (by decide)⟩

/-- The code's filter agrees pointwise with the amended qualifier: keep when the
expiry is absent or not strictly before now, and the stored path is absent or a
prefix of the request path. -/
theorem cookieValid_eq_amended (pathname : JStr) (now : Int) (c : Cookie) :
    cookieValid pathname now c = amendedQualifies pathname now c := by
  obtain ⟨nm, v, pa, ex, ho, se⟩ := c
  unfold cookieValid amendedQualifies
  have hpath : ∀ (q : Option JStr),
      (if (match q with
            | some p => !p.isEmpty && !(p.isPrefixOf pathname)
            | none => false) = true then false else true) =
        (match q with
         | none => true
         | some p => p.isPrefixOf pathname) := by
    intro q
    cases q with
    | none => rfl
    | some p =>
      cases p with
      | nil => cases pathname <;> rfl
      | cons a t =>
        by_cases hp : ((a :: t).isPrefixOf pathname) = true <;> simp [hp]
  cases ex with
  | none => simpa using hpath pa
  | some e =>
    by_cases he : e < now
    · simp [he, not_le.mpr he]
    · have hle : now ≤ e := not_lt.mp he
      have h1 : decide (e < now) = false := by simp [he]
      have h2 : decide (now ≤ e) = true := by simp [hle]
      simp only [h1, h2, Bool.false_eq_true, if_false, Bool.true_and]
      simpa using hpath pa

/-- Claim C5 counterexample: at `now = 5` the cookie `cExpNow` whose expiry equals
`now` fails the claim's strict `expires > now` test, yet the computed header is
`a=1`; and the cookie `cBarePath` stored with an undefined path has no stored path
string prefixing the request path, yet the computed header is `b=2`.  So the header
is not the serialization of exactly the claim-qualifying cookies. -/
theorem c5_cookie_header_counterexample :
    (cookieHeaderOpt [cExpNow] (js "/x") 5 = some (js "a=1") ∧
      claimQualifies (js "/x") 5 cExpNow = false) ∧
    (cookieHeaderOpt [cBarePath] (js "/x") 0 = some (js "b=2") ∧
      claimQualifies (js "/x") 0 cBarePath = false) := by decide

/-- Claim C5 corrected: the Cookie header is the `; `-joined `name=value`
serialization, in stored order, of exactly those cookies whose `expires` is null or
not strictly before now and whose stored path is absent or a prefix of the request
path; when none qualifies the header is omitted from the outgoing request. -/
theorem c5_cookie_header_amended (stored : List Cookie) (pathname : JStr) (now : Int) :
    cookieHeaderOpt stored pathname now =
      (if (stored.filter (amendedQualifies pathname now)).isEmpty then none
       else some (List.intercalate (js "; ")
         ((stored.filter (amendedQualifies pathname now)).map
           (fun c => c.name ++ js "=" ++ c.value)))) ∧
    (∀ headers d, (stored.filter (amendedQualifies pathname now)).isEmpty = true →
      outgoingHeadersApp { websockets := [], cookieJar := [(d, stored)] } now
        { hostname := d, pathname := pathname } headers = headers) := by
  have hfilter : stored.filter (cookieValid pathname now) =
      stored.filter (amendedQualifies pathname now) :=
    List.filter_congr (fun x _ => cookieValid_eq_amended pathname now x)
  constructor
  · unfold cookieHeaderOpt serializeCookies
    rw [hfilter]
    cases hv : stored.filter (amendedQualifies pathname now) with
    | nil => rfl
    | cons a l => simp
  · intro headers d hempty
    have hget : alistGet [(d, stored)] d = some stored := by
      simp [alistGet]
    have hnil : stored.filter (cookieValid pathname now) = [] := by
      rw [hfilter]
      exact List.isEmpty_iff.mp hempty
    unfold outgoingHeadersApp
    simp [hget, cookieHeaderOpt, hnil]

/-- Witness for C5 (amended): a jar holding only an expired cookie adds no Cookie
header — the caller's headers pass through unchanged. -/
theorem c5_cookie_header_amended_witness :
    outgoingHeadersApp { websockets := [], cookieJar := [(js "d", [cExpired])] } 0
      { hostname := js "d", pathname := js "/" } [(js "k", js "v")] = [(js "k", js "v")] :=
  (c5_cookie_header_amended [cExpired] (js "/") 0).2 [(js "k", js "v")] (js "d") (by decide)

/-- Claim C6 counterexample: parsing `a=b=c` keeps value `b` (everything after the
second `=` is dropped, so a value containing `=` is not kept intact), and parsing
`abc` (no `=` in the first segment) still returns a cookie — name `abc`, empty
value — rather than no cookie. -/
theorem c6_parse_counterexample :
    ¬((parseCookie pdNull 0 (js "a=b=c")).map Cookie.value = some (js "b=c")) ∧
    (parseCookie pdNull 0 (js "a=b=c")).map Cookie.value = some (js "b") ∧
    parseCookie pdNull 0 (js "abc") ≠ none ∧
    parseCookie pdNull 0 (js "abc") =
      some { name := js "abc", value := [], path := some (js "/"), expires := none,
             httpOnly := false, secure := false } := by decide

/-- `split` never yields an empty part list. -/
theorem jsSplit_ne_nil (sep : Char) : ∀ (s : JStr), jsSplit sep s ≠ []
  | [] => by simp [jsSplit]
  | c :: rest => by
    unfold jsSplit
    by_cases hc : (c == sep) = true
    · simp [hc]
    · simp only [hc, Bool.false_eq_true, if_false]
      cases h : jsSplit sep rest <;> simp

/-- The attribute loop never touches the cookie's name or value. -/
theorem cookieAttrStep_preserves (pd : JStr → Option Int) (now : Int) :
    ∀ (attrs : List JStr) (c : Cookie),
      (attrs.foldl (cookieAttrStep pd now) c).name = c.name ∧
      (attrs.foldl (cookieAttrStep pd now) c).value = c.value
  | [], _ => ⟨rfl, rfl⟩
  | a :: t, c => by
    have hstep1 : (cookieAttrStep pd now c a).name = c.name := by
      unfold cookieAttrStep
      dsimp only
      repeat' split
      all_goals rfl
    have hstep2 : (cookieAttrStep pd now c a).value = c.value := by
      unfold cookieAttrStep
      dsimp only
      repeat' split
      all_goals rfl
    have hstep : (cookieAttrStep pd now c a).name = c.name ∧
        (cookieAttrStep pd now c a).value = c.value := ⟨hstep1, hstep2⟩
    have ih := cookieAttrStep_preserves pd now t (cookieAttrStep pd now c a)
    exact ⟨ih.1.trans hstep.1, ih.2.trans hstep.2⟩

/-- Claim C6 corrected: for every raw input, parsing always returns a cookie whose
name is the trimmed first `=`-field of the first `;`-segment and whose value is the
second `=`-field (empty when the segment has no `=`; truncated at the next `=` when
the value contains one); parsing never returns "no cookie". -/
theorem c6_parse_first_pair_amended (pd : JStr → Option Int) (now : Int) (s : JStr) :
    ∃ c, parseCookie pd now s = some c ∧
      c.name = (firstPairOf s).1 ∧ c.value = (firstPairOf s).2 := by
  cases hsp : jsSplit ';' s with
  | nil => exact absurd hsp (jsSplit_ne_nil ';' s)
  | cons a t =>
    have hmap : (jsSplit ';' s).map jsTrim = jsTrim a :: t.map jsTrim := by
      rw [hsp]
      rfl
    unfold parseCookie
    rw [hmap]
    refine ⟨_, rfl, ?_, ?_⟩
    · rw [(cookieAttrStep_preserves pd now (t.map jsTrim) _).1]
      unfold firstPairOf
      rw [hsp]
      rfl
    · rw [(cookieAttrStep_preserves pd now (t.map jsTrim) _).2]
      unfold firstPairOf
      rw [hsp]
      rfl

/-- Claim C7 counterexample: a non-empty string that is not a valid absolute URL
makes the part_000 webRequest return `success:false` with status 500 (the generic
catch status carrying the `Invalid URL` throw), not status 400 as the claim
states. -/
theorem c7_invalid_url_counterexample :
    (webRequestP0 netOk
      { url := some (js "not-a-url"), method := js "GET", headers := [], data := none }).success
        = false ∧
    (webRequestP0 netOk
      { url := some (js "not-a-url"), method := js "GET", headers := [], data := none }).status
        ≠ some 400 ∧
    (webRequestP0 netOk
      { url := some (js "not-a-url"), method := js "GET", headers := [], data := none }).status
        = some 500 := by decide

/-- Claim C7 corrected: an absent or empty url is rejected locally by part_000 with
`success:false, status:400` before any network action; a non-empty invalid url also
never reaches the network, but it surfaces as a 500 failure — through the part_000
catch clause, and, for the src/app.js implementation, through the API wrapper
catching the `new URL` throw.  Every result below is the same for every network
outcome `net`, which formalizes "performs no network action". -/
theorem c7_invalid_url_amended (params : ReqParams)
    (net : List (JStr × JStr) → Except AxiosErr AxiosResp) :
    (urlFalsy params.url = true →
      webRequestP0 net params =
        { success := false, status := some 400, error := some (js "URL is required") }) ∧
    (urlFalsy params.url = false → parseURL (params.url.getD []) = none →
      webRequestP0 net params =
        { success := false, status := some 500, error := some (js "Invalid URL"),
          data := some [] }) ∧
    (∀ pd now st, parseURL (params.url.getD []) = none →
      apiWebRequest pd now st params net =
        ({ success := false, status := some 500, error := some (js "Invalid URL") }, st)) := by
  refine ⟨?_, ?_, ?_⟩
  · intro hf
    unfold webRequestP0
    simp [hf]
  · intro hf hinv
    unfold webRequestP0
    simp [hf, hinv]
  · intro pd now st hinv
    unfold apiWebRequest webRequestApp
    rw [hinv]

/-- Witness for C7 (amended): a missing url yields the 400 result, an invalid url
the 500 result, for the concrete network `netOk`. -/
theorem c7_invalid_url_amended_witness :
    webRequestP0 netOk { url := none, method := js "GET", headers := [], data := none } =
      { success := false, status := some 400, error := some (js "URL is required") } ∧
    webRequestP0 netOk
        { url := some (js "not-a-url"), method := js "GET", headers := [], data := none } =
      { success := false, status := some 500, error := some (js "Invalid URL"),
        data := some [] } :=
  ⟨(c7_invalid_url_amended
      { url := none, method := js "GET", headers := [], data := none } netOk).1 (by decide),
   (c7_invalid_url_amended
      { url := some (js "not-a-url"), method := js "GET", headers := [], data := none }
      netOk).2.1 (by decide) (by decide)⟩

/-- Claim C8 counterexample: the src/app.js webRequest hands caller-supplied `host`
and `origin` headers straight to the dispatch — a network that inspects its header
argument observes the `host` header. -/
theorem c8_host_counterexample :
    webRequestApp pdNull 0 stEmpty
      { url := some (js "http://a.b/"), method := js "GET",
        headers := [(js "host", js "evil")], data := none } netSeesHost =
      Except.error (js "host was dispatched") := by rfl

/-- Every binding the override writes for the overridden key is undefined. -/
theorem alistSet_none_at_key (m : List (JStr × Option JStr)) (k : JStr) :
    ∀ p ∈ alistSet m k none, p.1 = k → p.2 = none := by
  intro p hp hk
  unfold alistSet at hp
  by_cases hb : alistHas m k = true
  · rw [if_pos hb] at hp
    rcases List.mem_map.mp hp with ⟨q, hq, hpq⟩
    by_cases hqk : (q.1 == k) = true
    · rw [if_pos hqk] at hpq
      rw [← hpq]
    · rw [if_neg hqk] at hpq
      rw [← hpq] at hk
      exact absurd (by simp [hk]) hqk
  · rw [if_neg hb] at hp
    rcases List.mem_append.mp hp with hmem | hmem
    · exact absurd
        (show alistHas m k = true from List.any_eq_true.mpr ⟨p, hmem, by simp [hk]⟩) hb
    · rcases List.mem_singleton.mp hmem with rfl
      rfl

/-- A binding whose key differs from the written key was already present. -/
theorem mem_of_mem_alistSet_ne {α : Type} {m : List (JStr × α)} {k : JStr} {v : α}
    {p : JStr × α} (hp : p ∈ alistSet m k v) (hne : p.1 ≠ k) : p ∈ m := by
  unfold alistSet at hp
  by_cases hb : alistHas m k = true
  · rw [if_pos hb] at hp
    rcases List.mem_map.mp hp with ⟨q, hq, hpq⟩
    by_cases hqk : (q.1 == k) = true
    · rw [if_pos hqk] at hpq
      rw [← hpq] at hne
      exact absurd rfl hne
    · rw [if_neg hqk] at hpq
      exact hpq ▸ hq
  · rw [if_neg hb] at hp
    rcases List.mem_append.mp hp with hmem | hmem
    · exact hmem
    · rcases List.mem_singleton.mp hmem with rfl
      exact absurd rfl hne
/-- A binding whose key differs from the written key survives the write. -/
theorem mem_alistSet_of_mem_ne {α : Type} {m : List (JStr × α)} {k : JStr} {v : α}
    {p : JStr × α} (hp : p ∈ m) (hne : p.1 ≠ k) : p ∈ alistSet m k v := by
  unfold alistSet
  by_cases hb : alistHas m k = true
  · rw [if_pos hb]
    refine List.mem_map.mpr ⟨p, hp, ?_⟩
    rw [if_neg (by simp [hne])]
  · rw [if_neg hb]
    exact List.mem_append_left _ hp

/-- Claim C8 corrected: only the part_000 webRequest strips the hazardous headers —
it overrides `host` and `origin` with undefined, so no binding for either key is
dispatched while every other caller header survives; the src/app.js webRequest
forwards caller headers unmodified apart from the computed `cookie` header, so
caller-supplied `host`/`origin` headers do reach its dispatch. -/
theorem c8_strip_host_origin_amended (headers : List (JStr × JStr)) :
    (∀ v : JStr, (js "host", v) ∉ outgoingHeadersP0 headers ∧
      (js "origin", v) ∉ outgoingHeadersP0 headers) ∧
    (∀ k v, (k, v) ∈ headers → k ≠ js "host" → k ≠ js "origin" →
      (k, v) ∈ outgoingHeadersP0 headers) ∧
    (∀ st now u k v, (k, v) ∈ headers → k ≠ js "cookie" →
      (k, v) ∈ outgoingHeadersApp st now u headers) := by
  have habs : ∀ (key : JStr) (v : JStr), key = js "host" ∨ key = js "origin" →
      (key, v) ∉ outgoingHeadersP0 headers := by
    intro key v hkey hmem
    unfold outgoingHeadersP0 at hmem
    rcases List.mem_filterMap.mp hmem with ⟨p, hp, hf⟩
    cases hp2 : p.2 with
    | none => rw [hp2] at hf; simp at hf
    | some w =>
      rw [hp2] at hf
      have hf' : (p.1, w) = (key, v) := by simpa using hf
      have hk1 : p.1 = key := congrArg Prod.fst hf'
      rcases hkey with h | h
      · have hne : p.1 ≠ js "origin" := by
          rw [hk1, h]
          decide
        have hp' := mem_of_mem_alistSet_ne hp hne
        have hval := alistSet_none_at_key _ _ p hp' (by rw [hk1, h])
        rw [hp2] at hval
        exact absurd hval (by simp)
      · have hval := alistSet_none_at_key _ _ p hp (by rw [hk1, h])
        rw [hp2] at hval
        exact absurd hval (by simp)
  refine ⟨fun v => ⟨habs _ v (Or.inl rfl), habs _ v (Or.inr rfl)⟩, ?_, ?_⟩
  · intro k v hmem hh ho
    unfold outgoingHeadersP0
    refine List.mem_filterMap.mpr ⟨(k, some v), ?_, rfl⟩
    exact mem_alistSet_of_mem_ne
      (mem_alistSet_of_mem_ne (List.mem_map.mpr ⟨(k, v), hmem, rfl⟩) hh) ho
  · intro st now u k v hmem hck
    unfold outgoingHeadersApp
    cases hopt : cookieHeaderOpt ((alistGet st.cookieJar u.hostname).getD []) u.pathname now with
    | none =>
      simp only [hopt]
      exact hmem
    | some hv =>
      simp only [hopt]
      exact mem_alistSet_of_mem_ne hmem hck

/-- Witness for C8 (amended): with a caller-supplied `host` and `accept` header,
part_000 drops `host` from the dispatched set and keeps `accept`. -/
theorem c8_strip_host_origin_amended_witness :
    (js "host", js "evil") ∉ outgoingHeadersP0 [(js "host", js "evil"), (js "accept", js "*")] ∧
    (js "accept", js "*") ∈ outgoingHeadersP0 [(js "host", js "evil"), (js "accept", js "*")] :=
  ⟨((c8_strip_host_origin_amended [(js "host", js "evil"), (js "accept", js "*")]).1 (js "evil")).1,
   (c8_strip_host_origin_amended [(js "host", js "evil"), (js "accept", js "*")]).2.1
     (js "accept") (js "*") (by decide) (by decide) (by decide)⟩
